import Mathlib

/-!
Verification development for the Sag-abi-mediation worker backend.

The code is modelled over `List Char`; timestamps are natural numbers
(milliseconds), JS `Date.now()` values.  JSON numbers are modelled as
integers (the grading domain only uses integer Notenpunkte; fractional or
exponent literals are floating-point territory and outside the model, the
number parser rejects them rather than misreading them).  JS whitespace
(`\s`, `String.trim`, JSON whitespace) is modelled by the common core set
space/tab/newline/carriage-return.
-/

set_option maxHeartbeats 2000000

namespace SagAbi

/-- Whitespace test shared by the trim, `\s*` regex pieces and the JSON
parser model. -/
def isWs (c : Char) : Bool := c == ' ' || c == '\t' || c == '\n' || c == '\r'

/-- Leading-whitespace removal (the front half of JS `String.trim`). -/
def dropLead (l : List Char) : List Char := l.dropWhile isWs

/-- Trailing-whitespace removal (the back half of JS `String.trim`). -/
def dropTrail : List Char → List Char
  | [] => []
  | c :: cs =>
    match dropTrail cs with
    | [] => if isWs c then [] else [c]
    | r :: rs => c :: r :: rs

/-- Model of JS `String.trim` over the modelled whitespace set. -/
def trimWs (l : List Char) : List Char := dropTrail (dropLead l)

/-- JSON value, as produced by `JSON.parse` (numbers restricted to
integers, see the header comment). -/
inductive Json where
  | null : Json
  | bool : Bool → Json
  | num : Int → Json
  | str : List Char → Json
  | arr : List Json → Json
  | obj : List (List Char × Json) → Json

/-- JS object key update: overwrite in place if the key is present
(keeping its position, as both `JSON.parse` duplicate-key handling and
plain property assignment do), append otherwise. -/
def setKey (fs : List (List Char × Json)) (k : List Char) (v : Json) :
    List (List Char × Json) :=
  if fs.any (fun p => p.1 == k) then
    fs.map (fun p => if p.1 == k then (k, v) else p)
  else fs ++ [(k, v)]

/-- Hex digit value, for `\uXXXX` escapes. -/
def hexDigit? (c : Char) : Option Nat :=
  if '0' ≤ c ∧ c ≤ '9' then some (c.toNat - 48)
  else if 'a' ≤ c ∧ c ≤ 'f' then some (c.toNat - 87)
  else if 'A' ≤ c ∧ c ≤ 'F' then some (c.toNat - 55)
  else none

/-- Single-character JSON string escapes. -/
def escChar? : Char → Option Char
  | '"' => some '"'
  | '\\' => some '\\'
  | '/' => some '/'
  | 'b' => some (Char.ofNat 8)
  | 'f' => some (Char.ofNat 12)
  | 'n' => some '\n'
  | 'r' => some '\r'
  | 't' => some '\t'
  | _ => none

/-- JSON string body parser (input starts after the opening quote;
returns the decoded characters and the remainder after the closing
quote).  Unescaped control characters are rejected, exactly the strict
`JSON.parse` behaviour that forces the extractor's repair stages. -/
def parseStringBody : List Char → Option (List Char × List Char)
  | [] => none
  | '"' :: cs => some ([], cs)
  | '\\' :: 'u' :: h1 :: h2 :: h3 :: h4 :: cs =>
    (match hexDigit? h1, hexDigit? h2, hexDigit? h3, hexDigit? h4 with
     | some a, some b, some c, some d =>
       (parseStringBody cs).map
         (fun p => (Char.ofNat (((a * 16 + b) * 16 + c) * 16 + d) :: p.1, p.2))
     | _, _, _, _ => none)
  | '\\' :: e :: cs =>
    (match escChar? e with
     | some r => (parseStringBody cs).map (fun p => (r :: p.1, p.2))
     | none => none)
  | c :: cs =>
    if c.toNat < 32 then none
    else (parseStringBody cs).map (fun p => (c :: p.1, p.2))

/-- Digit run to a natural number. -/
def digitsToNat (ds : List Char) : Nat :=
  ds.foldl (fun a c => a * 10 + (c.toNat - 48)) 0

/-- Unsigned part of a JSON number token (no leading zeros; a following
`.`, `e` or `E` makes the token fail rather than being silently
truncated, since fractions are outside the integer model). -/
def parseNumCore : List Char → Option (Int × List Char)
  | '0' :: rest =>
    (match rest with
     | d :: _ =>
       if d.isDigit || d == '.' || d == 'e' || d == 'E' then none
       else some (0, rest)
     | [] => some (0, []))
  | c :: rest =>
    if c.isDigit then
      let ds := (c :: rest).takeWhile Char.isDigit
      let r := (c :: rest).dropWhile Char.isDigit
      match r with
      | d :: _ =>
        if d == '.' || d == 'e' || d == 'E' then none
        else some ((digitsToNat ds : Nat), r)
      | [] => some ((digitsToNat ds : Nat), [])
    else none
  | [] => none

/-- JSON number token (integers only, optional minus sign). -/
def parseNumTok (l : List Char) : Option (Int × List Char) :=
  match l with
  | '-' :: l₁ => (parseNumCore l₁).map (fun p => (-p.1, p.2))
  | _ => parseNumCore l

/-- Mode of the single-function JSON parser: a value, the fields of an
object (accumulator carried), or the items of an array. -/
inductive PMode where
  | value : PMode
  | fields : List (List Char × Json) → PMode
  | items : List Json → PMode

/-- Fuel-indexed recursive descent parser for strict JSON, the model of
`JSON.parse`'s grammar.  Fuel decreases on every recursive call; the
driver supplies more fuel than the maximal call depth, so the fuel never
runs out on the inputs the theorems touch. -/
def parseRun : Nat → PMode → List Char → Option (Json × List Char)
  | 0, _, _ => none
  | Nat.succ fuel, PMode.value, l =>
    (match l.dropWhile isWs with
     | [] => none
     | 'n' :: 'u' :: 'l' :: 'l' :: rest => some (Json.null, rest)
     | 't' :: 'r' :: 'u' :: 'e' :: rest => some (Json.bool true, rest)
     | 'f' :: 'a' :: 'l' :: 's' :: 'e' :: rest => some (Json.bool false, rest)
     | '"' :: rest => (parseStringBody rest).map (fun p => (Json.str p.1, p.2))
     | '\x7b' :: rest =>
       (match rest.dropWhile isWs with
        | '\x7d' :: r => some (Json.obj [], r)
        | r => parseRun fuel (PMode.fields []) r)
     | '[' :: rest =>
       (match rest.dropWhile isWs with
        | ']' :: r => some (Json.arr [], r)
        | r => parseRun fuel (PMode.items []) r)
     | l' => (parseNumTok l').map (fun p => (Json.num p.1, p.2)))
  | Nat.succ fuel, PMode.fields acc, l =>
    (match l with
     | '"' :: r₁ =>
       (match parseStringBody r₁ with
        | some (key, r₂) =>
          (match r₂.dropWhile isWs with
           | ':' :: r₃ =>
             (match parseRun fuel PMode.value r₃ with
              | some (v, r₄) =>
                (match r₄.dropWhile isWs with
                 | ',' :: r₅ => parseRun fuel (PMode.fields (setKey acc key v)) (r₅.dropWhile isWs)
                 | '\x7d' :: r₅ => some (Json.obj (setKey acc key v), r₅)
                 | _ => none)
              | none => none)
           | _ => none)
        | none => none)
     | _ => none)
  | Nat.succ fuel, PMode.items acc, l =>
    (match parseRun fuel PMode.value l with
     | some (v, r) =>
       (match r.dropWhile isWs with
        | ',' :: r₂ => parseRun fuel (PMode.items (acc ++ [v])) r₂
        | ']' :: r₂ => some (Json.arr (acc ++ [v]), r₂)
        | _ => none)
     | none => none)

/-- Model of strict `JSON.parse`: surrounding whitespace is ignored, the
whole input must be consumed by a single value. -/
def parseJson (l : List Char) : Option Json :=
  match parseRun (2 * (trimWs l).length + 4) PMode.value (trimWs l) with
  | some (v, r) => if (r.dropWhile isWs).isEmpty then some v else none
  | none => none

example : parseJson "\x7b\"a\": 1\x7d".toList =
    some (Json.obj [("a".toList, Json.num 1)]) := rfl

example : parseJson "  \x7b\"a\": [1, -2, \"x\"], \"b\": null\x7d ".toList =
    some (Json.obj [("a".toList, Json.arr [Json.num 1, Json.num (-2), Json.str "x".toList]),
                    ("b".toList, Json.null)]) := rfl

example : parseJson "\x7b\"a\": \"l1\nl2\"\x7d".toList = none := rfl

example : parseJson "\x7b\"a\": \"l1\\nl2\"\x7d".toList =
    some (Json.obj [("a".toList, Json.str "l1\nl2".toList)]) := rfl

example : parseJson "\x7b\"a\": 1\x7d x".toList = none := rfl

example : parseJson "\x7b\"a\": 1.5\x7d".toList = none := rfl

/-- Does `pat` occur at the very front of `l`?  (The literal-match core of
the regex scans.) -/
def leadsWith : List Char → List Char → Bool
  | [], _ => true
  | _ :: _, [] => false
  | p :: ps, c :: cs => p == c && leadsWith ps cs

/-- Does `pat` occur anywhere in `l` as a contiguous run? -/
def hasSeq (pat : List Char) : List Char → Bool
  | [] => leadsWith pat []
  | c :: cs => leadsWith pat (c :: cs) || hasSeq pat cs

/-- The three-backtick fence marker. -/
def fence3 : List Char := [Char.ofNat 96, Char.ofNat 96, Char.ofNat 96]

/-- The fence marker with its `json` language tag. -/
def fenceJson : List Char := fence3 ++ ['j', 's', 'o', 'n']

/-- One pass of `text.replace(/```json\s*/g, "")`: scan left to right,
drop every occurrence of the 7-character marker together with the
whitespace that follows it, resume after the removed run.  Fuel-indexed
to keep the recursion structural; the driver supplies `length + 1`,
enough because every step strictly shrinks the list. -/
def stripFenceJsonRun : Nat → List Char → List Char
  | 0, l => l
  | _ + 1, [] => []
  | fuel + 1, c :: cs =>
    if leadsWith fenceJson (c :: cs) then
      stripFenceJsonRun fuel (((c :: cs).drop 7).dropWhile isWs)
    else c :: stripFenceJsonRun fuel cs

def stripFenceJson (l : List Char) : List Char := stripFenceJsonRun (l.length + 1) l

/-- One pass of `.replace(/```\s*/g, "")`, same shape as above. -/
def stripFence3Run : Nat → List Char → List Char
  | 0, l => l
  | _ + 1, [] => []
  | fuel + 1, c :: cs =>
    if leadsWith fence3 (c :: cs) then
      stripFence3Run fuel (((c :: cs).drop 3).dropWhile isWs)
    else c :: stripFence3Run fuel cs

def stripFence3 (l : List Char) : List Char := stripFence3Run (l.length + 1) l

/-- Stage 1 of `extractJSON`: strip markdown fences, then trim. -/
def cleanedText (text : List Char) : List Char :=
  trimWs (stripFence3 (stripFenceJson text))

/-- Stage 3 candidate: `clean.match(/\{[\s\S]*\}/)`, the greedy span from
the first opening brace to the last closing brace after it. -/
def objSpan (l : List Char) : Option (List Char) :=
  match l.dropWhile (fun c => c != '\x7b') with
  | [] => none
  | t =>
    (match t.reverse.dropWhile (fun c => c != '\x7d') with
     | [] => none
     | r => some r.reverse)

/-- The shared lazy tail of the repair regexes, `([\s\S]*?)"\s*([,}])`:
given the characters after an opening quote, find the shortest value such
that a quote, optional whitespace and a comma or closing brace follow.
Returns the value, the whitespace run after the closing quote, the
delimiter, and the remainder after the delimiter. -/
def findClose : List Char → Option (List Char × List Char × Char × List Char)
  | [] => none
  | '"' :: cs =>
    (match cs.dropWhile isWs with
     | d :: rest =>
       if d == ',' || d == '\x7d' then some ([], cs.takeWhile isWs, d, rest)
       else (findClose cs).map (fun q => ('"' :: q.1, q.2))
     | [] => (findClose cs).map (fun q => ('"' :: q.1, q.2)))
  | c :: cs => (findClose cs).map (fun q => (c :: q.1, q.2))

/-- Value escaping of repair stage 4: newline, carriage return and tab
become their two-character escapes. -/
def escNRT (v : List Char) : List Char :=
  v.foldr
    (fun c acc =>
      (if c == '\n' then ['\\', 'n']
       else if c == '\r' then ['\\', 'r']
       else if c == '\t' then ['\\', 't']
       else [c]) ++ acc) []

/-- Value escaping of repair stage 5: double every backslash, escape
every quote, escape newline and tab, drop carriage returns. -/
def esc5 (v : List Char) : List Char :=
  v.foldr
    (fun c acc =>
      (if c == '\\' then ['\\', '\\']
       else if c == '"' then ['\\', '"']
       else if c == '\n' then ['\\', 'n']
       else if c == '\r' then []
       else if c == '\t' then ['\\', 't']
       else [c]) ++ acc) []

/-- Repair stage 4, `repaired.replace(/:\s*"([\s\S]*?)"\s*([,}])/g, ...)`:
rewrite every matched `: "value"` pair with control characters escaped
(the replacement normalises the whitespace to `: "` and drops the run
before the delimiter, exactly as the replacement string does).  On a
failed match the scan advances one character, as the regex engine does. -/
def stage4Run : Nat → List Char → List Char
  | 0, l => l
  | _ + 1, [] => []
  | fuel + 1, ':' :: cs =>
    (match cs.dropWhile isWs with
     | '"' :: cs₂ =>
       (match findClose cs₂ with
        | some (v, _, d, rest) =>
          ':' :: ' ' :: '"' :: (escNRT v ++ '"' :: d :: stage4Run fuel rest)
        | none => ':' :: stage4Run fuel cs)
     | _ => ':' :: stage4Run fuel cs)
  | fuel + 1, c :: cs => c :: stage4Run fuel cs

def stage4 (l : List Char) : List Char := stage4Run (l.length + 1) l

/-- Repair stage 5,
`replace(/([{,]\s*"[^"]+"\s*:\s*")([^]*?)("\s*[,}])/g, ...)`: rewrite
every matched key/value pair with the aggressive value escaping; the
matched pre and post groups are emitted verbatim. -/
def stage5Run : Nat → List Char → List Char
  | 0, l => l
  | _ + 1, [] => []
  | fuel + 1, c :: cs =>
    if c == '\x7b' || c == ',' then
      match cs.dropWhile isWs with
      | '"' :: r₂ =>
        (match r₂.dropWhile (fun x => x != '"') with
         | '"' :: r₄ =>
           if (r₂.takeWhile (fun x => x != '"')).isEmpty then c :: stage5Run fuel cs
           else
             (match r₄.dropWhile isWs with
              | ':' :: r₆ =>
                (match r₆.dropWhile isWs with
                 | '"' :: r₈ =>
                   (match findClose r₈ with
                    | some (v, w4, d, rest) =>
                      c :: (cs.takeWhile isWs ++
                        '"' :: (r₂.takeWhile (fun x => x != '"') ++
                          '"' :: (r₄.takeWhile isWs ++
                            ':' :: (r₆.takeWhile isWs ++
                              '"' :: (esc5 v ++ '"' :: (w4 ++ d :: stage5Run fuel rest))))))
                    | none => c :: stage5Run fuel cs)
                 | _ => c :: stage5Run fuel cs)
              | _ => c :: stage5Run fuel cs)
         | _ => c :: stage5Run fuel cs)
      | _ => c :: stage5Run fuel cs
    else c :: stage5Run fuel cs

def stage5 (l : List Char) : List Char := stage5Run (l.length + 1) l

/-- Sequential `replace(/\\n/g, "\n")` used by the salvage stage. -/
def unescN : List Char → List Char
  | '\\' :: 'n' :: rest => '\n' :: unescN rest
  | c :: rest => c :: unescN rest
  | [] => []

/-- Sequential `replace(/\\"/g, '"')` used by the salvage stage. -/
def unescQ : List Char → List Char
  | '\\' :: '"' :: rest => '"' :: unescQ rest
  | c :: rest => c :: unescQ rest
  | [] => []

/-- First match of `"key"\s*:\s*"([\s\S]*?)"\s*[,}]` at the current
position, returning the raw captured value. -/
def keyStrHere (key : List Char) (l : List Char) : Option (List Char) :=
  if leadsWith ('"' :: key ++ ['"']) l then
    match (l.drop (key.length + 2)).dropWhile isWs with
    | ':' :: r₂ =>
      (match r₂.dropWhile isWs with
       | '"' :: r₃ => (findClose r₃).map (fun q => q.1)
       | _ => none)
    | _ => none
  else none

/-- Leftmost match of the salvage string regex for `key`. -/
def findKeyStr (key : List Char) : List Char → Option (List Char)
  | [] => none
  | c :: cs =>
    (match keyStrHere key (c :: cs) with
     | some v => some v
     | none => findKeyStr key cs)

/-- First match of `"key"\s*:\s*(\d+)` at the current position. -/
def keyNumHere (key : List Char) (l : List Char) : Option Nat :=
  if leadsWith ('"' :: key ++ ['"']) l then
    match (l.drop (key.length + 2)).dropWhile isWs with
    | ':' :: r₂ =>
      (match r₂.dropWhile isWs with
       | d :: _ =>
         if d.isDigit then
           some (digitsToNat ((r₂.dropWhile isWs).takeWhile Char.isDigit))
         else none
       | [] => none)
    | _ => none
  else none

/-- Leftmost match of the salvage numeric regex for `key`. -/
def findKeyNum (key : List Char) : List Char → Option Nat
  | [] => none
  | c :: cs =>
    (match keyNumHere key (c :: cs) with
     | some n => some n
     | none => findKeyNum key cs)

/-- The fixed key list of the salvage stage's string pass. -/
def strSalvageKeys : List (List Char) :=
  ["headline".toList, "source_info".toList, "article_text".toList,
   "task_instruction".toList, "task_1".toList, "task_2".toList,
   "task_3_1_quote".toList, "task_3_1".toList, "task_3_2_situation".toList,
   "task_3_2".toList, "inhalt_np".toList, "sprache_np".toList,
   "gesamt_np".toList, "feedback".toList, "corrections".toList]

/-- The fixed key list of the salvage stage's numeric pass. -/
def numSalvageKeys : List (List Char) :=
  ["inhalt_np".toList, "sprache_np".toList, "gesamt_np".toList,
   "content_textstructure".toList, "language".toList, "total".toList]

/-- Stage 6, key-by-key salvage: regex-extract each known field from the
cleaned text (string pass first, then the numeric pass, which overwrites
in place), assembling a field list in JS property order. -/
def salvage (clean : List Char) : List (List Char × Json) :=
  numSalvageKeys.foldl
    (fun o k =>
      match findKeyNum k clean with
      | some n => setKey o k (Json.num (Int.ofNat n))
      | none => o)
    (strSalvageKeys.foldl
      (fun o k =>
        match findKeyStr k clean with
        | some v => setKey o k (Json.str (unescQ (unescN v)))
        | none => o) [])

/-- The salvage acceptance rule: succeed only with at least two fields. -/
def salvageResult (clean : List Char) : Option Json :=
  if 2 ≤ (salvage clean).length then some (Json.obj (salvage clean)) else none

/-- Stages 3b–6 of `extractJSON`, applied to the isolated span `m` (the
salvage stage reads the cleaned text, not the span, as the source does). -/
def repairPipeline (clean m : List Char) : Option Json :=
  match parseJson m with
  | some v => some v
  | none =>
    match parseJson (stage4 m) with
    | some v => some v
    | none =>
      match parseJson (stage5 m) with
      | some v => some v
      | none => salvageResult clean

/-- The resilient JSON extractor.  `none` models the terminal
`"Model did not return valid JSON."` error. -/
def extractJSON (text : List Char) : Option Json :=
  match parseJson (cleanedText text) with
  | some v => some v
  | none =>
    match objSpan (cleanedText text) with
    | none => none
    | some m => repairPipeline (cleanedText text) m

example : extractJSON "```json\n\x7b\"a\": 1\x7d\n```".toList =
    some (Json.obj [("a".toList, Json.num 1)]) := rfl

example : extractJSON "noise before \x7b\"a\": 1\x7d".toList =
    some (Json.obj [("a".toList, Json.num 1)]) := rfl

example : extractJSON "\x7b\"a\": \"line1\nline2\", \"b\": 1\x7d".toList =
    some (Json.obj [("a".toList, Json.str "line1\nline2".toList),
                    ("b".toList, Json.num 1)]) := rfl

example : extractJSON "\x7b\"a\": \"say \"hi\" ok\", \"b\": 1\x7d".toList =
    some (Json.obj [("a".toList, Json.str "say \"hi\" ok".toList),
                    ("b".toList, Json.num 1)]) := rfl

example : extractJSON "\"inhalt_np\": 5, \"sprache_np\": 6".toList = none := rfl

example : extractJSON "x\x7b\"inhalt_np\": 5, \"sprache_np\": 6,\x7d".toList =
    some (Json.obj [("inhalt_np".toList, Json.num 5),
                    ("sprache_np".toList, Json.num 6)]) := rfl

example : extractJSON "\x7b\"a\":\"```json b\"\x7d".toList =
    some (Json.obj [("a".toList, Json.str "b".toList)]) := rfl

example : extractJSON "no json here at all".toList = none := rfl

example : extractJSON "\x7b\"a\": \"x\", oops\", \"b\": 1\x7d".toList = none := rfl

/-! ### Rate limiter -/

def RATE_LIMIT_WINDOW : Nat := 60 * 1000

def MAX_REQUESTS_PER_WINDOW : Nat := 10

/-- One entry of `rateLimitMap`. -/
structure RLEntry where
  count : Nat
  windowStart : Nat
deriving DecidableEq

/-- The `rateLimitMap`, a JS `Map` modelled as an insertion-ordered
association list. -/
abbrev RLMap := List (String × RLEntry)

def rlLookup : RLMap → String → Option RLEntry
  | [], _ => none
  | (k, e) :: m, ip => if k = ip then some e else rlLookup m ip

/-- JS `Map.set`: update in place if present, append otherwise. -/
def rlSet : RLMap → String → RLEntry → RLMap
  | [], ip, e => [(ip, e)]
  | (k, e') :: m, ip, e =>
    if k = ip then (ip, e) :: m else (k, e') :: rlSet m ip e

/-- Model of `checkRateLimit`, returning the updated map and whether the request
is allowed (`true` models the `null` return, `false` the 429 response).
Timestamps are naturals; JS `now - windowStart > W` with a negative
difference is false, and so is the truncated natural subtraction, so the
model agrees with the source on every input. -/
def checkRateLimit (m : RLMap) (ip : String) (now : Nat) : RLMap × Bool :=
  match rlLookup m ip with
  | none => (rlSet m ip ⟨1, now⟩, true)
  | some entry =>
    if now - entry.windowStart > RATE_LIMIT_WINDOW then
      (rlSet m ip ⟨1, now⟩, true)
    else
      (rlSet m ip ⟨entry.count + 1, entry.windowStart⟩,
       decide (entry.count + 1 ≤ MAX_REQUESTS_PER_WINDOW))

/-- A sequence of requests from one client, collecting the verdicts. -/
def runRL : RLMap → String → List Nat → RLMap × List Bool
  | m, _, [] => (m, [])
  | m, ip, t :: ts =>
    ((runRL (checkRateLimit m ip t).1 ip ts).1,
     (checkRateLimit m ip t).2 :: (runRL (checkRateLimit m ip t).1 ip ts).2)

/-- Model of `cleanupRateLimitMap`: bump the global counter, and on every 100th
call sweep entries whose window started more than five windows ago. -/
def cleanupRateLimitMap (requestCounter : Nat) (now : Nat) (m : RLMap) :
    Nat × RLMap :=
  (requestCounter + 1,
   if (requestCounter + 1) % 100 = 0 then
     m.filter (fun p => decide (now - p.2.windowStart ≤ RATE_LIMIT_WINDOW * 5))
   else m)

/-! ### Auth and the request gate -/

/-- The worker environment bindings used by the modelled handlers. -/
structure Env where
  accessPassword : Option String
  teacherPassword : Option String

/-- JS falsiness of an optional string binding (`undefined` or `""`). -/
def strFalsy : Option String → Bool
  | none => true
  | some s => s = ""

/-- Model of `checkAuth` of the fail-closed variant: a missing or empty
`ACCESS_PASSWORD` secret yields a 500 configuration error; a wrong
`X-Access-Password` header yields 401; `none` means the request may
proceed. -/
def checkAuth (env : Env) (header : Option String) : Option Nat :=
  if strFalsy env.accessPassword then some 500
  else if header.getD "" ≠ env.accessPassword.getD "" then some 401
  else none

/-- The protected prefix of `fetch` for an `/api/*` path: auth first,
then the rate limiter, then (only when allowed) the cleanup sweep.
Returns the early-response status (`none` = dispatch to a handler) and
the resulting rate-limit map and request counter. -/
def apiGate (env : Env) (header ip : Option String) (now : Nat)
    (m : RLMap) (counter : Nat) : Option Nat × RLMap × Nat :=
  match checkAuth env header with
  | some s => (some s, m, counter)
  | none =>
    let r := checkRateLimit m (ip.getD "unknown") now
    if r.2 then
      let cl := cleanupRateLimitMap counter now r.1
      (none, cl.2, cl.1)
    else (some 429, r.1, counter)

/-- The routing guard of `fetch`: only `/api/*` paths are protected
(`pathname.startsWith("/api/")`, modelled over the character list). -/
def fetchGate (path : String) (env : Env) (header ip : Option String)
    (now : Nat) (m : RLMap) (counter : Nat) : Option Nat × RLMap × Nat :=
  if leadsWith "/api/".toList path.toList then apiGate env header ip now m counter
  else (none, m, counter)

/-! ### Stored results and the delete handler -/

/-- A persisted grading record (one element of the `all_results` blob). -/
structure StoredResult where
  id : String
  student_name : String
  course : String
  type : String
  topic : String
  content : Option Int
  language : Option Int
  total : Int
  date : String
deriving DecidableEq

/-- Model of `handleDeleteResult` of the hardened variant, over the decoded body
fields and the stored sequence: validate `result_id`, fail closed on a
missing teacher secret, check the teacher credential, then filter the
sequence by exact id mismatch and store it back.  Returns the HTTP
status and the sequence written back (unchanged on error). -/
def handleDeleteResult : Env → Option String → Option String →
    List StoredResult → Nat × List StoredResult
  | _, _, none, stored => (400, stored)
  | env, teacher_password, some rid, stored =>
    if rid = "" ∨ rid.length > 100 then (400, stored)
    else if strFalsy env.teacherPassword then (500, stored)
    else if teacher_password ≠ some (env.teacherPassword.getD "") then (401, stored)
    else (200, stored.filter (fun r => decide (r.id ≠ rid)))

/-! ### Grade score computation -/

/-- First field of a parsed object with the given key (parsed objects
have unique keys, see `setKey`). -/
def lookupField : List (List Char × Json) → List Char → Option Json
  | [], _ => none
  | (k', v) :: fs, k => if k' = k then some v else lookupField fs k

/-- JS property access on a parsed value. -/
def jsonField : Json → List Char → Option Json
  | Json.obj fs, k => lookupField fs k
  | _, _ => none

/-- Nullish access: `parsed.k ?? fallback` falls through on a missing
key and on an explicit `null`. -/
def nnField (j : Json) (k : List Char) : Option Json :=
  match jsonField j k with
  | some Json.null => none
  | some v => some v
  | none => none

def inhaltOf (j : Json) : Option Json :=
  (nnField j "inhalt_np".toList).orElse
    (fun _ => nnField j "content_textstructure".toList)

def spracheOf (j : Json) : Option Json :=
  (nnField j "sprache_np".toList).orElse
    (fun _ => nnField j "language".toList)

def gesamtOf (j : Json) : Option Json := nnField j "gesamt_np".toList

/-- The rule `Math.round(inhalt * 0.4 + sprache * 0.6)` with the Sperrklausel
clamp.  `Math.round x = ⌊x + 1/2⌋`, and for integer sub-scores the exact
value `(4i+6s)/10` never lands on a half (4i+6s is even), so the
floating-point evaluation agrees with the exact one:
`⌊(4i+6s)/10 + 1/2⌋ = (4i+6s+5).fdiv 10`. -/
def sperrTotal (i s : Int) : Int :=
  if i = 0 ∨ s = 0 then min (Int.fdiv (4 * i + 6 * s + 5) 10) 3
  else Int.fdiv (4 * i + 6 * s + 5) 10

/-- The `scores.total` field computed by `handleGrade` from the parsed
model result: a model-provided `gesamt_np` is used verbatim; otherwise
the weighted rounded formula with the Sperrklausel clamp is applied when
both sub-scores are present (numeric), and `null` results otherwise. -/
def gradeTotal (j : Json) : Option Json :=
  match gesamtOf j with
  | some v => some v
  | none =>
    match inhaltOf j, spracheOf j with
    | some (Json.num i), some (Json.num s) => some (Json.num (sperrTotal i s))
    | _, _ => none

/-- The three `scores` fields of the grade response. -/
def gradeScores (j : Json) : Option Json × Option Json × Option Json :=
  (inhaltOf j, spracheOf j, gradeTotal j)

example : checkRateLimit [] "a" 7 = ([("a", ⟨1, 7⟩)], true) := rfl

example : checkRateLimit [("a", ⟨10, 0⟩)] "a" 50 = ([("a", ⟨11, 0⟩)], false) := rfl

example : checkRateLimit [("a", ⟨10, 0⟩)] "a" 60001 = ([("a", ⟨1, 60001⟩)], true) := rfl

example : (runRL [] "a" [0, 1, 2, 3, 4, 5, 6, 7, 8, 9, 10, 11]).2 =
    [true, true, true, true, true, true, true, true, true, true, false, false] := rfl

example :
    gradeTotal (Json.obj [("inhalt_np".toList, Json.num 4),
                          ("sprache_np".toList, Json.num 6)]) =
      some (Json.num 5) := rfl

example :
    gradeTotal (Json.obj [("inhalt_np".toList, Json.num 0),
                          ("sprache_np".toList, Json.num 6)]) =
      some (Json.num 3) := rfl

/-! ### Supporting lemmas -/

lemma isWs_head_dropLead : ∀ (l : List Char) (c : Char) (cs : List Char),
    l.dropWhile isWs = c :: cs → isWs c = false := by
  intro l
  induction l with
  | nil => intro c cs h; simp [List.dropWhile] at h
  | cons x xs ih =>
    intro c cs h
    rw [List.dropWhile_cons] at h
    by_cases hx : isWs x = true
    · exact ih c cs (by simpa [hx] using h)
    · have hx' : isWs x = false := by simpa using hx
      simp [hx'] at h
      rw [← h.1]
      exact hx'

lemma dropTrail_idem : ∀ l : List Char, dropTrail (dropTrail l) = dropTrail l := by
  intro l
  induction l with
  | nil => rfl
  | cons c cs ih =>
    rw [dropTrail]
    cases h : dropTrail cs with
    | nil =>
      by_cases hc : isWs c = true
      · simp [hc]; rfl
      · have hc' : isWs c = false := by simpa using hc
        simp [hc']
        rw [dropTrail]
        simp [dropTrail, hc']
    | cons r rs =>
      rw [dropTrail]
      have : dropTrail (r :: rs) = r :: rs := by
        conv_lhs => rw [← h]
        rw [ih, h]
      rw [this]

lemma dropTrail_head (c : Char) (cs : List Char) :
    dropTrail (c :: cs) = [] ∨ ∃ rs, dropTrail (c :: cs) = c :: rs := by
  rw [dropTrail]
  cases dropTrail cs with
  | nil =>
    by_cases hc : isWs c = true
    · left; simp [hc]
    · right; exact ⟨[], by simp [hc]⟩
  | cons r rs => right; exact ⟨r :: rs, rfl⟩

lemma dropLead_dropTrail_dropLead (l : List Char) :
    dropLead (dropTrail (dropLead l)) = dropTrail (dropLead l) := by
  cases h : dropLead l with
  | nil => simp [dropTrail, dropLead, List.dropWhile]
  | cons c cs =>
    have hc : isWs c = false := isWs_head_dropLead l c cs h
    rcases dropTrail_head c cs with h2 | ⟨rs, h2⟩
    · rw [h2]; rfl
    · rw [h2]; simp [dropLead, List.dropWhile_cons, hc]

lemma trimWs_idem (l : List Char) : trimWs (trimWs l) = trimWs l := by
  unfold trimWs
  rw [dropLead_dropTrail_dropLead, dropTrail_idem]

lemma leadsWith_append : ∀ (p q l : List Char),
    leadsWith (p ++ q) l = true → leadsWith p l = true := by
  intro p
  induction p with
  | nil => intro q l _; rfl
  | cons a as ih =>
    intro q l h
    cases l with
    | nil => simp [leadsWith] at h
    | cons c cs =>
      rw [List.cons_append, leadsWith] at h
      rw [leadsWith]
      rcases Bool.and_eq_true_iff.mp h with ⟨h1, h2⟩
      exact Bool.and_eq_true_iff.mpr ⟨h1, ih q cs h2⟩

lemma hasSeq_cons_false {pat : List Char} {c : Char} {cs : List Char}
    (h : hasSeq pat (c :: cs) = false) :
    leadsWith pat (c :: cs) = false ∧ hasSeq pat cs = false := by
  rw [hasSeq] at h
  exact Bool.or_eq_false_iff.mp h

lemma stripFenceJsonRun_eq_self : ∀ (fuel : Nat) (l : List Char),
    hasSeq fence3 l = false → stripFenceJsonRun fuel l = l := by
  intro fuel
  induction fuel with
  | zero => intro l _; rfl
  | succ f ih =>
    intro l h
    cases l with
    | nil => rfl
    | cons c cs =>
      have hlead : leadsWith fenceJson (c :: cs) = false := by
        by_contra hcon
        have ht : leadsWith fenceJson (c :: cs) = true := by
          simpa using hcon
        have : leadsWith fence3 (c :: cs) = true := leadsWith_append fence3 _ _ ht
        rw [(hasSeq_cons_false h).1] at this
        exact Bool.false_ne_true this
      rw [stripFenceJsonRun, if_neg (by simp [hlead]), ih cs (hasSeq_cons_false h).2]

lemma stripFence3Run_eq_self : ∀ (fuel : Nat) (l : List Char),
    hasSeq fence3 l = false → stripFence3Run fuel l = l := by
  intro fuel
  induction fuel with
  | zero => intro l _; rfl
  | succ f ih =>
    intro l h
    cases l with
    | nil => rfl
    | cons c cs =>
      rw [stripFence3Run, if_neg (by simp [(hasSeq_cons_false h).1]),
        ih cs (hasSeq_cons_false h).2]

lemma cleanedText_no_fence {l : List Char} (h : hasSeq fence3 l = false) :
    cleanedText l = trimWs l := by
  unfold cleanedText stripFenceJson stripFence3
  rw [stripFenceJsonRun_eq_self _ _ h, stripFence3Run_eq_self _ _ h]

lemma parseJson_trimWs (l : List Char) : parseJson (trimWs l) = parseJson l := by
  unfold parseJson
  rw [trimWs_idem]

/-! ### C1 — extractor round-trip on already-valid JSON -/

/-- C1 (amended): for every input that strictly parses as a single JSON
object and contains no three-backtick run, the extractor returns exactly
the strict parse via the direct-parse stage, and no repair stage is
applied.  (The backtick restriction is forced by `extract_roundtrip_cex`:
stage 1's fence stripping is a global regex replace that also rewrites
backtick runs inside string values of valid JSON.) -/
theorem extract_faithful_no_fence (l : List Char) (fs : List (List Char × Json))
    (hfence : hasSeq fence3 l = false)
    (hp : parseJson l = some (Json.obj fs)) :
    extractJSON l = some (Json.obj fs) := by
  unfold extractJSON
  rw [cleanedText_no_fence hfence, parseJson_trimWs, hp]

/-- Witness for `extract_faithful_no_fence` at a concrete valid object. -/
theorem extract_faithful_no_fence_witness :
    extractJSON "\x7b\"ok\": 1\x7d".toList =
      some (Json.obj [("ok".toList, Json.num 1)]) :=
  extract_faithful_no_fence _ _ rfl rfl

/-- C1 counterexample: the input is a strictly valid JSON object whose
field `a` holds the string `"```json b"`, but the extractor's stage-1
fence stripping rewrites the value to `"b"`, so the returned object is
not equivalent to the strict parse. -/
def roundTripCex : List Char := "\x7b\"a\":\"```json b\"\x7d".toList

theorem extract_roundtrip_cex :
    parseJson roundTripCex =
      some (Json.obj [("a".toList, Json.str "```json b".toList)]) ∧
    extractJSON roundTripCex =
      some (Json.obj [("a".toList, Json.str "b".toList)]) ∧
    "b".toList ≠ "```json b".toList :=
  ⟨rfl, rfl, by decide⟩

/-! ### C7 — control-character repair -/

/-- C7: on `{"a": "line1\nline2", "b": 1}` with a literal newline byte in
the value, the strict parse fails, the whole text is the stage-3 span,
stage 4 escapes the newline so that the re-parse succeeds, and the
extractor returns `a` as the single string with an embedded newline and
`b` as the integer 1. -/
theorem extract_ctrl_repair :
    parseJson "\x7b\"a\": \"line1\nline2\", \"b\": 1\x7d".toList = none ∧
    objSpan (cleanedText "\x7b\"a\": \"line1\nline2\", \"b\": 1\x7d".toList) =
      some "\x7b\"a\": \"line1\nline2\", \"b\": 1\x7d".toList ∧
    parseJson (stage4 "\x7b\"a\": \"line1\nline2\", \"b\": 1\x7d".toList) =
      some (Json.obj [("a".toList, Json.str "line1\nline2".toList),
                      ("b".toList, Json.num 1)]) ∧
    extractJSON "\x7b\"a\": \"line1\nline2\", \"b\": 1\x7d".toList =
      some (Json.obj [("a".toList, Json.str "line1\nline2".toList),
                      ("b".toList, Json.num 1)]) :=
  ⟨rfl, rfl, rfl, rfl⟩

/-! ### C8 — quote/escape repair -/

/-- C8 (amended): quote repair demonstrated on the representative
candidate object `{"a": "say "hi" ok", "b": 1}`: stages 2–4 fail, stage 5
escapes the internal quotes, and the parsed value of `a` carries them as
literal characters.  Recovery is not universal: when an internal quote is
followed by optional whitespace and a comma or brace, the lazy
close-quote search ends the value early and the extractor can fail, see
`quote_repair_cex`. -/
theorem quote_repair_example :
    parseJson "\x7b\"a\": \"say \"hi\" ok\", \"b\": 1\x7d".toList = none ∧
    parseJson (stage4 "\x7b\"a\": \"say \"hi\" ok\", \"b\": 1\x7d".toList) = none ∧
    parseJson (stage5 "\x7b\"a\": \"say \"hi\" ok\", \"b\": 1\x7d".toList) =
      some (Json.obj [("a".toList, Json.str "say \"hi\" ok".toList),
                      ("b".toList, Json.num 1)]) ∧
    extractJSON "\x7b\"a\": \"say \"hi\" ok\", \"b\": 1\x7d".toList =
      some (Json.obj [("a".toList, Json.str "say \"hi\" ok".toList),
                      ("b".toList, Json.num 1)]) :=
  ⟨rfl, rfl, rfl, rfl⟩

/-- C8 counterexample: in `{"a": "x", oops", "b": 1}` the value of `a`
contains an unescaped internal quote that is followed by a comma, so the
lazy value capture closes at it, every repair stage leaves the text
unparseable, and the extractor raises the terminal error instead of
recovering the object. -/
def quoteRepairCex : List Char := "\x7b\"a\": \"x\", oops\", \"b\": 1\x7d".toList

theorem quote_repair_cex :
    parseJson quoteRepairCex = none ∧
    objSpan (cleanedText quoteRepairCex) = some quoteRepairCex ∧
    extractJSON quoteRepairCex = none :=
  ⟨rfl, rfl, rfl⟩

/-! ### C4 — error paths and the salvage stage -/

/-- C4 (amended): when the direct parse of the cleaned text fails, the
extractor raises the terminal error if the cleaned text has no
brace-to-brace span (the salvage stage is NOT reached in that case); and
when a span exists but its parse and both repairs fail, the salvage
object is returned exactly when at least two known fields were
recovered, the terminal error otherwise. -/
theorem extract_error_paths (text : List Char)
    (hdirect : parseJson (cleanedText text) = none) :
    (objSpan (cleanedText text) = none → extractJSON text = none) ∧
    (∀ m, objSpan (cleanedText text) = some m →
       parseJson m = none → parseJson (stage4 m) = none →
       parseJson (stage5 m) = none →
       extractJSON text =
         (if 2 ≤ (salvage (cleanedText text)).length
          then some (Json.obj (salvage (cleanedText text))) else none)) := by
  constructor
  · intro hspan
    unfold extractJSON
    rw [hdirect, hspan]
  · intro m hspan h3 h4 h5
    simp only [extractJSON, repairPipeline, salvageResult, hdirect, hspan, h3, h4, h5]

/-- Witness for `extract_error_paths`: a span whose parse and repairs
fail (trailing comma) but whose two numeric fields are salvaged. -/
theorem extract_error_paths_witness :
    extractJSON "x\x7b\"inhalt_np\": 5, \"sprache_np\": 6,\x7d".toList =
      some (Json.obj [("inhalt_np".toList, Json.num 5),
                      ("sprache_np".toList, Json.num 6)]) :=
  ((extract_error_paths "x\x7b\"inhalt_np\": 5, \"sprache_np\": 6,\x7d".toList rfl).2
    "\x7b\"inhalt_np\": 5, \"sprache_np\": 6,\x7d".toList rfl rfl rfl rfl).trans rfl

/-- C4 counterexample: braceless text with two salvageable known fields.
All parse stages fail and the salvage pass would recover two fields, yet
the extractor raises the terminal error, because the salvage stage is
guarded by the existence of a `{...}` span. -/
def salvageSkippedCex : List Char := "\"inhalt_np\": 5, \"sprache_np\": 6".toList

theorem salvage_skipped_cex :
    parseJson (cleanedText salvageSkippedCex) = none ∧
    objSpan (cleanedText salvageSkippedCex) = none ∧
    (salvage (cleanedText salvageSkippedCex)).length = 2 ∧
    extractJSON salvageSkippedCex = none :=
  ⟨rfl, rfl, rfl, rfl⟩

/-! ### C2 — rate limiter window behaviour -/

lemma rlLookup_rlSet_self : ∀ (m : RLMap) (ip : String) (e : RLEntry),
    rlLookup (rlSet m ip e) ip = some e := by
  intro m ip e
  induction m with
  | nil => simp [rlSet, rlLookup]
  | cons p m ih =>
    obtain ⟨k, e'⟩ := p
    by_cases h : k = ip
    · simp [rlSet, rlLookup, h]
    · simp [rlSet, rlLookup, h, ih]

lemma runRL_steady (ip : String) (t0 : Nat) :
    ∀ (ts : List Nat) (m : RLMap) (k : Nat),
      rlLookup m ip = some ⟨k, t0⟩ →
      (∀ t ∈ ts, t - t0 ≤ RATE_LIMIT_WINDOW) →
      (runRL m ip ts).2 =
        (List.range ts.length).map
          (fun i => decide (k + 1 + i ≤ MAX_REQUESTS_PER_WINDOW)) := by
  intro ts
  induction ts with
  | nil => intro m k _ _; simp [runRL]
  | cons t ts ih =>
    intro m k hl hw
    have hstep : checkRateLimit m ip t =
        (rlSet m ip ⟨k + 1, t0⟩, decide (k + 1 ≤ MAX_REQUESTS_PER_WINDOW)) := by
      unfold checkRateLimit
      rw [hl]
      exact if_neg (by show ¬ (t - t0 > RATE_LIMIT_WINDOW); have := hw t (by simp); omega)
    rw [runRL, hstep]
    simp only
    rw [ih _ (k + 1) (rlLookup_rlSet_self ..) (fun t' ht' => hw t' (by simp [ht']))]
    rw [List.length_cons, List.range_succ_eq_map, List.map_cons, List.map_map]
    have harith : (fun i => decide (k + 1 + i ≤ MAX_REQUESTS_PER_WINDOW)) ∘ Nat.succ
        = fun i => decide (k + 1 + 1 + i ≤ MAX_REQUESTS_PER_WINDOW) := by
      funext i
      have h : k + 1 + Nat.succ i = k + 1 + 1 + i := by omega
      simp [Function.comp, h]
    rw [harith]

/-- C2: the rate limiter for a fixed identity.  A first request creates
`{count = 1, windowStart = now}` and is allowed; a request within the
window increments the count (window start unchanged, also when rejected)
and is rejected exactly when the incremented count exceeds the quota; a
request after the window resets the entry and is allowed; and a burst of
requests inside one window is allowed for the first 10 requests and
rejected from the 11th on. -/
theorem rate_limit_window_behavior (m : RLMap) (ip : String) (now : Nat) :
    (rlLookup m ip = none →
       checkRateLimit m ip now = (rlSet m ip ⟨1, now⟩, true)) ∧
    (∀ e, rlLookup m ip = some e → now - e.windowStart ≤ RATE_LIMIT_WINDOW →
       checkRateLimit m ip now =
         (rlSet m ip ⟨e.count + 1, e.windowStart⟩,
          decide (e.count + 1 ≤ MAX_REQUESTS_PER_WINDOW))) ∧
    (∀ e, rlLookup m ip = some e → now - e.windowStart > RATE_LIMIT_WINDOW →
       checkRateLimit m ip now = (rlSet m ip ⟨1, now⟩, true)) ∧
    (∀ ts, rlLookup m ip = none → (∀ t ∈ ts, t - now ≤ RATE_LIMIT_WINDOW) →
       (runRL m ip (now :: ts)).2 =
         true :: (List.range ts.length).map
           (fun i => decide (i + 2 ≤ MAX_REQUESTS_PER_WINDOW))) := by
  refine ⟨?_, ?_, ?_, ?_⟩
  · intro h; unfold checkRateLimit; rw [h]
  · intro e he hw
    unfold checkRateLimit
    rw [he]
    exact if_neg (by omega)
  · intro e he hw
    unfold checkRateLimit
    rw [he]
    exact if_pos hw
  · intro ts h hw
    have hstep : checkRateLimit m ip now = (rlSet m ip ⟨1, now⟩, true) := by
      unfold checkRateLimit; rw [h]
    rw [runRL, hstep]
    simp only
    rw [runRL_steady ip now ts _ 1 (rlLookup_rlSet_self ..) hw]
    have harith : (fun i => decide (1 + 1 + i ≤ MAX_REQUESTS_PER_WINDOW))
        = fun i => decide (i + 2 ≤ MAX_REQUESTS_PER_WINDOW) := by
      funext i
      have hx : 1 + 1 + i = i + 2 := by omega
      simp [hx]
    rw [harith]

/-- Witness for `rate_limit_window_behavior`: a fresh identity is
allowed, the 11th request of a burst is rejected with the count still
incremented, an expired window resets, and a 12-request burst is allowed
exactly 10 times. -/
theorem rate_limit_window_behavior_witness :
    checkRateLimit [] "1.2.3.4" 0 = ([("1.2.3.4", ⟨1, 0⟩)], true) ∧
    checkRateLimit [("1.2.3.4", ⟨10, 0⟩)] "1.2.3.4" 50 =
      ([("1.2.3.4", ⟨11, 0⟩)], false) ∧
    checkRateLimit [("1.2.3.4", ⟨11, 0⟩)] "1.2.3.4" 60001 =
      ([("1.2.3.4", ⟨1, 60001⟩)], true) ∧
    (runRL [] "1.2.3.4" [0, 1, 2, 3, 4, 5, 6, 7, 8, 9, 10, 11]).2 =
      [true, true, true, true, true, true, true, true, true, true, false, false] := by
  refine ⟨?_, ?_, ?_, ?_⟩
  · exact ((rate_limit_window_behavior [] "1.2.3.4" 0).1 rfl).trans rfl
  · exact ((rate_limit_window_behavior [("1.2.3.4", ⟨10, 0⟩)] "1.2.3.4" 50).2.1
      ⟨10, 0⟩ rfl (by decide)).trans rfl
  · exact ((rate_limit_window_behavior [("1.2.3.4", ⟨11, 0⟩)] "1.2.3.4" 60001).2.2.1
      ⟨11, 0⟩ rfl (by decide)).trans rfl
  · exact ((rate_limit_window_behavior [] "1.2.3.4" 0).2.2.2
      [1, 2, 3, 4, 5, 6, 7, 8, 9, 10, 11] rfl (by decide)).trans rfl

/-! ### C5 — cleanup sweep -/

/-- C5: every 100th call of `cleanupRateLimitMap` sweeps the map,
deleting exactly the entries whose window started more than five windows
before `now`, keeping every other entry unchanged and in order (the
swept map is a sublist of the old one); on every other call the map is
untouched; the counter always advances by one. -/
theorem cleanup_sweep (counter now : Nat) (m : RLMap) :
    (cleanupRateLimitMap counter now m).1 = counter + 1 ∧
    ((counter + 1) % 100 = 0 →
       (cleanupRateLimitMap counter now m).2 =
         m.filter (fun p => decide (now - p.2.windowStart ≤ RATE_LIMIT_WINDOW * 5)) ∧
       (∀ p, p ∈ (cleanupRateLimitMap counter now m).2 ↔
          p ∈ m ∧ now - p.2.windowStart ≤ RATE_LIMIT_WINDOW * 5) ∧
       (cleanupRateLimitMap counter now m).2.Sublist m) ∧
    ((counter + 1) % 100 ≠ 0 → (cleanupRateLimitMap counter now m).2 = m) := by
  unfold cleanupRateLimitMap
  refine ⟨rfl, ?_, ?_⟩
  · intro h
    rw [if_pos h]
    refine ⟨rfl, ?_, List.filter_sublist m⟩
    intro p
    simp [List.mem_filter]
  · intro h
    rw [if_neg h]

/-- Witness for `cleanup_sweep`: the 100th call deletes a stale entry
and keeps a fresh one; the 99th call touches nothing. -/
theorem cleanup_sweep_witness :
    (cleanupRateLimitMap 99 400000 [("old", ⟨3, 0⟩), ("new", ⟨2, 200000⟩)]).2 =
      [("new", ⟨2, 200000⟩)] ∧
    (cleanupRateLimitMap 98 400000 [("old", ⟨3, 0⟩), ("new", ⟨2, 200000⟩)]).2 =
      [("old", ⟨3, 0⟩), ("new", ⟨2, 200000⟩)] := by
  constructor
  · exact ((cleanup_sweep 99 400000 [("old", ⟨3, 0⟩), ("new", ⟨2, 200000⟩)]).2.1
      (by decide)).1.trans rfl
  · exact (cleanup_sweep 98 400000 [("old", ⟨3, 0⟩), ("new", ⟨2, 200000⟩)]).2.2
      (by decide)

/-! ### C6 — fail-closed auth -/

/-- C6: in the fail-closed variant, an unset `ACCESS_PASSWORD` makes
every `/api/*` request answer 500 with the rate-limit state untouched
(no fallback to any hardcoded default — the result holds for every
header value, including a would-be default password); with the secret
set, a mismatching `X-Access-Password` header answers 401. -/
theorem auth_fail_closed (path : String) (env : Env) (header ip : Option String)
    (now : Nat) (m : RLMap) (counter : Nat)
    (hpath : leadsWith "/api/".toList path.toList = true) :
    (env.accessPassword = none →
       fetchGate path env header ip now m counter = (some 500, m, counter)) ∧
    (∀ p, env.accessPassword = some p → p ≠ "" → header.getD "" ≠ p →
       fetchGate path env header ip now m counter = (some 401, m, counter)) := by
  constructor
  · intro h
    unfold fetchGate
    rw [if_pos hpath]
    unfold apiGate checkAuth
    rw [h]
    rfl
  · intro p h hp hh
    unfold fetchGate
    rw [if_pos hpath]
    unfold apiGate checkAuth
    rw [h]
    simp [strFalsy, hp, hh]

/-- Witness for `auth_fail_closed`: a request carrying the old hardcoded
default password is still rejected with 500 when the secret is unset,
and a wrong header is rejected with 401 when it is set. -/
theorem auth_fail_closed_witness :
    fetchGate "/api/grade" ⟨none, none⟩ (some "stanna2026") none 0 [] 0 =
      (some 500, [], 0) ∧
    fetchGate "/api/grade" ⟨some "secret", none⟩ (some "wrong") none 0 [] 0 =
      (some 401, [], 0) := by
  constructor
  · exact (auth_fail_closed "/api/grade" ⟨none, none⟩ (some "stanna2026") none 0 [] 0
      rfl).1 rfl
  · exact (auth_fail_closed "/api/grade" ⟨some "secret", none⟩ (some "wrong") none 0 [] 0
      rfl).2 "secret" rfl (by decide) (by decide)

/-! ### C10 — auth checked before the rate limiter -/

/-- C10: on an `/api/*` request, a failed auth check (401 or the
fail-closed 500) is answered before the rate limiter runs: the
rate-limit map and the cleanup counter are returned unchanged, so
failed-auth traffic never consumes quota. -/
theorem auth_before_rate_limit (path : String) (env : Env)
    (header ip : Option String) (now : Nat) (m : RLMap) (counter : Nat)
    (s : Nat) (hpath : leadsWith "/api/".toList path.toList = true)
    (hauth : checkAuth env header = some s) :
    fetchGate path env header ip now m counter = (some s, m, counter) := by
  unfold fetchGate
  rw [if_pos hpath]
  unfold apiGate
  rw [hauth]

/-- Witness for `auth_before_rate_limit`: a wrong password leaves an
existing rate-limit entry at its current count. -/
theorem auth_before_rate_limit_witness :
    fetchGate "/api/ocr" ⟨some "secret", none⟩ (some "wrong") (some "1.2.3.4") 5
      [("1.2.3.4", ⟨7, 0⟩)] 3 = (some 401, [("1.2.3.4", ⟨7, 0⟩)], 3) :=
  auth_before_rate_limit "/api/ocr" ⟨some "secret", none⟩ (some "wrong")
    (some "1.2.3.4") 5 [("1.2.3.4", ⟨7, 0⟩)] 3 401 rfl rfl

/-! ### C9 — delete-result frame property -/

lemma filter_keep_of_ne {rid : String} : ∀ (l : List StoredResult),
    (∀ x ∈ l, x.id ≠ rid) → l.filter (fun r => decide (r.id ≠ rid)) = l := by
  intro l h
  refine List.filter_eq_self.mpr ?_
  intro a ha
  exact decide_eq_true (h a ha)

/-- C9: with the teacher secret configured, the correct credential, a
valid id, and a stored sequence containing exactly one record with that
id, the delete handler removes exactly that record and returns the other
records unchanged and in their original order. -/
theorem delete_result_exact (env : Env) (pw rid : String) (r : StoredResult)
    (pre post : List StoredResult)
    (hpw : env.teacherPassword = some pw) (hpw' : pw ≠ "")
    (hrid : rid ≠ "") (hlen : rid.length ≤ 100) (hr : r.id = rid)
    (hpre : ∀ x ∈ pre, x.id ≠ rid) (hpost : ∀ x ∈ post, x.id ≠ rid) :
    handleDeleteResult env (some pw) (some rid) (pre ++ r :: post) =
      (200, pre ++ post) := by
  simp only [handleDeleteResult]
  rw [if_neg (by push_neg; exact ⟨hrid, by omega⟩)]
  rw [if_neg (by simp [strFalsy, hpw, hpw'])]
  rw [if_neg (by simp [hpw])]
  have h1 : pre.filter (fun x => decide (x.id ≠ rid)) = pre := filter_keep_of_ne pre hpre
  have h2 : post.filter (fun x => decide (x.id ≠ rid)) = post := filter_keep_of_ne post hpost
  rw [List.filter_append, h1, List.filter_cons_of_neg (by simp [hr]), h2]

/-- Witness for `delete_result_exact` on a three-record store. -/
theorem delete_result_exact_witness :
    handleDeleteResult ⟨none, some "tpw"⟩ (some "tpw") (some "r2")
      [⟨"r1", "alice", "", "mediation", "", none, none, 10, ""⟩,
       ⟨"r2", "bob", "", "mediation", "", none, none, 11, ""⟩,
       ⟨"r3", "carol", "", "mediation", "", none, none, 12, ""⟩] =
      (200,
       [⟨"r1", "alice", "", "mediation", "", none, none, 10, ""⟩,
        ⟨"r3", "carol", "", "mediation", "", none, none, 12, ""⟩]) :=
  delete_result_exact ⟨none, some "tpw"⟩ "tpw" "r2"
    ⟨"r2", "bob", "", "mediation", "", none, none, 11, ""⟩
    [⟨"r1", "alice", "", "mediation", "", none, none, 10, ""⟩]
    [⟨"r3", "carol", "", "mediation", "", none, none, 12, ""⟩]
    rfl (by decide) (by decide) (by decide) rfl (by decide) (by decide)

/-! ### C3 — grade score formula -/

/-- C3 (amended): when the parsed model result carries no usable
`gesamt_np` and both sub-scores are present as numbers, the returned
total is `round(inhalt*0.4 + sprache*0.6)` (exactly
`(4i + 6s + 5).fdiv 10`) with the Sperrklausel clamp to at most 3 when
either sub-score is zero; in particular 4/6 gives 5 and 0/6 gives 3.
(The restriction to a missing `gesamt_np` is forced by
`grade_total_cex`: a model-provided total is used verbatim.) -/
theorem grade_total_formula (j : Json) (i s : Int)
    (hg : gesamtOf j = none)
    (hi : inhaltOf j = some (Json.num i))
    (hs : spracheOf j = some (Json.num s)) :
    gradeTotal j =
      some (Json.num
        (if i = 0 ∨ s = 0 then min (Int.fdiv (4 * i + 6 * s + 5) 10) 3
         else Int.fdiv (4 * i + 6 * s + 5) 10)) ∧
    sperrTotal 4 6 = 5 ∧ sperrTotal 0 6 = 3 := by
  refine ⟨?_, by decide, by decide⟩
  simp only [gradeTotal, hg, hi, hs, sperrTotal]

/-- Witness for `grade_total_formula` at sub-scores 4 and 6. -/
theorem grade_total_formula_witness :
    gradeTotal (Json.obj [("inhalt_np".toList, Json.num 4),
                          ("sprache_np".toList, Json.num 6)]) =
      some (Json.num 5) :=
  ((grade_total_formula
      (Json.obj [("inhalt_np".toList, Json.num 4),
                 ("sprache_np".toList, Json.num 6)]) 4 6 rfl rfl rfl).1).trans rfl

/-- C3 counterexample: a parsed result containing both sub-scores (0 and
6) together with a model-provided `gesamt_np` of 10.  The handler
returns the provided 10 verbatim: it neither equals the rounded formula
value nor respects the claimed clamp to at most 3 for a zero sub-score. -/
def gradeCex : Json :=
  Json.obj [("inhalt_np".toList, Json.num 0), ("sprache_np".toList, Json.num 6),
            ("gesamt_np".toList, Json.num 10)]

theorem grade_total_cex :
    inhaltOf gradeCex = some (Json.num 0) ∧
    spracheOf gradeCex = some (Json.num 6) ∧
    gradeTotal gradeCex = some (Json.num 10) ∧
    ¬ ((10 : Int) ≤ 3) ∧
    (10 : Int) ≠ Int.fdiv (4 * 0 + 6 * 6 + 5) 10 :=
  ⟨rfl, rfl, rfl, by decide, by decide⟩

end SagAbi
